import Mathlib

/-!
Verification of the nunuStudio editor sources against their specification.

Shallow embedding conventions:
* JavaScript numbers used as counters or pixel sizes are modelled as `Int`/`ℚ`.
* `Uint8Array` writes apply the ToUint8 conversion, i.e. reduction modulo 256.
* DOM / three.js side effects that the claims mention (alerts, modal
  destruction, undo/redo actions) are modelled as explicit effect lists.
* Strings that are scanned character by character are modelled as `List Char`.
-/

/-! ### source/core/three/scenes/Fog.js — `Font.fileIsFont` (lines 137-147)

`Font.fileIsFont(file)` returns false for an undefined argument, otherwise
lower-cases `file.name` and tests the five supported suffixes. -/

/-- A file reference as received by `Font.fileIsFont`: only the `name`
property is consulted.  File names are modelled as character lists. -/
structure FileRef where
  name : List Char
deriving DecidableEq

/-- JavaScript `String.prototype.endsWith` on character lists. -/
def strEndsWith (s suffix : List Char) : Bool :=
  suffix.isSuffixOf s

/-- JavaScript `toLocaleLowerCase`, modelled character-wise by
`Char.toLower`. -/
def strToLower (s : List Char) : List Char :=
  s.map Char.toLower

/-- `Font.fileIsFont` from `Fog.js` lines 137-147.  The `Option` argument
models the `file !== undefined` check. -/
def Font.fileIsFont : Option FileRef → Bool
  | some file =>
    let f := strToLower file.name
    strEndsWith f ['t', 't', 'f'] || strEndsWith f ['o', 't', 'f'] ||
      strEndsWith f ['t', 't', 'c'] || strEndsWith f ['o', 't', 'c'] ||
      strEndsWith f ['j', 's', 'o', 'n']
  | none => false

/-! ### src/unnamed/part_000 — `ArraybufferUtils.fromBinaryString` (lines 19-31)

The function allocates `new ArrayBuffer(str.length)`, views it as a
`Uint8Array` and writes `str.charCodeAt(i)` at every index.  Strings are
modelled by their list of UTF-16 code units; the `Uint8Array` store performs
the ToUint8 conversion (reduction mod 256). -/

/-- A `Uint8Array` store `view[i] = value`: ToUint8 reduces the value
modulo 256.  Out-of-range indices are ignored (as `List.set` does nothing),
which matches the loop never going out of range. -/
def uint8Write (view : List Nat) (i : Nat) (value : Nat) : List Nat :=
  view.set i (value % 256)

/-- `ArraybufferUtils.fromBinaryString` from `part_000` lines 19-31:
a zeroed buffer of `str.length` bytes is filled index by index with
`str.charCodeAt(i)`. -/
def ArraybufferUtils.fromBinaryString (str : List Nat) : List Nat :=
  let length := str.length
  (List.range length).foldl
    (fun view i => uint8Write view i (str.getD i 0))
    (List.replicate length 0)

/-! ### source/editor/gui/tab/CodeEditor.js — `setFontSize` (lines 161-170)

`setFontSize(size)` clamps the requested size to the lower limit 5, stores it
in `Editor.settings.code.fontSize` and writes the same value (suffixed with
"px") into the code editor wrapper style. -/

/-- The slice of `Editor.settings.code` that `setFontSize` touches. -/
structure CodeSettings where
  fontSize : ℚ
deriving DecidableEq

/-- `CodeEditor.prototype.setFontSize` from `CodeEditor.js` lines 161-170.
Returns the updated settings and the number written into the wrapper's
`fontSize` style (the code appends "px" to it). -/
def CodeEditor.setFontSize (settings : CodeSettings) (size : ℚ) :
    CodeSettings × ℚ :=
  let size := if size < 5 then 5 else size
  ({ settings with fontSize := size }, size)

/-! ### source/editor/gui/element/modal/LoadingModal.js (lines 21-123)

The modal keeps a counter of show requests.  The `Element` base constructor
initialises `visible = true`; the `LoadingModal` constructor sets the counter
to 0.  Timer/event-manager side effects are orthogonal to the claim and are
not modelled. -/

/-- The `LoadingModal` state relevant to the counter invariant. -/
structure ModalState where
  counter : Int
  visible : Bool
deriving DecidableEq

/-- A freshly constructed `LoadingModal`: `counter = 0` (LoadingModal
constructor, line 31) and `visible = true` (Element base constructor). -/
def LoadingModal.new : ModalState := { counter := 0, visible := true }

/-- `LoadingModal.prototype.show` (lines 84-95): increments the counter and,
exactly when it becomes 1, makes the modal visible. -/
def LoadingModal.showModal (s : ModalState) : ModalState :=
  let counter := s.counter + 1
  if counter = 1 then { counter := counter, visible := true }
  else { s with counter := counter }

/-- `LoadingModal.prototype.hide` (lines 103-114): decrements the counter;
when it drops below 1 or `force` is true, resets it to 0 and hides the
modal (`setVisibility(false)`). -/
def LoadingModal.hideModal (s : ModalState) (force : Bool) : ModalState :=
  let counter := s.counter - 1
  if counter < 1 ∨ force = true then { counter := 0, visible := false }
  else { s with counter := counter }

/-- One call in a `show`/`hide` call sequence. -/
inductive ModalOp where
  | opShow : ModalOp
  | opHide (force : Bool) : ModalOp
deriving DecidableEq

/-- Dispatch one call of a `show`/`hide` sequence. -/
def LoadingModal.step (s : ModalState) (op : ModalOp) : ModalState :=
  match op with
  | ModalOp.opShow => LoadingModal.showModal s
  | ModalOp.opHide f => LoadingModal.hideModal s f

/-- Run a sequence of `show()`/`hide(force)` calls on a freshly constructed
modal. -/
def LoadingModal.run (ops : List ModalOp) : ModalState :=
  ops.foldl LoadingModal.step LoadingModal.new

/-! ### src/unnamed/part_002 — `Element.prototype.updatePosition` (lines 388-412)

The element anchors itself with CSS `top`/`bottom` and `left`/`right`
depending on `_mode`.  The four mode constants are the numbers 0-3
(lines 84-111).  CSS pixel values are modelled as rationals. -/

/-- `Element.TOP_LEFT` (part_002 line 84). -/
def Element.TOP_LEFT : Nat := 0

/-- `Element.TOP_RIGHT` (part_002 line 93). -/
def Element.TOP_RIGHT : Nat := 1

/-- `Element.BOTTOM_LEFT` (part_002 line 102). -/
def Element.BOTTOM_LEFT : Nat := 2

/-- `Element.BOTTOM_RIGHT` (part_002 line 111). -/
def Element.BOTTOM_RIGHT : Nat := 3

/-- The four CSS anchoring properties written by `updatePosition`; `none`
models a property that has not been set. -/
structure CSSAnchors where
  top : Option ℚ
  bottom : Option ℚ
  left : Option ℚ
  right : Option ℚ
deriving DecidableEq

/-- The slice of a GUI `Element` used by `updatePosition`: the positioning
mode `_mode`, the stored position (`position.x`, `position.y`) and the CSS
style. -/
structure GUIElement where
  mode : Nat
  posX : ℚ
  posY : ℚ
  style : CSSAnchors
deriving DecidableEq

/-- `Element.prototype.updatePosition` from `part_002` lines 388-412.  When a
mode argument is given (`mode !== undefined`) the stored `_mode` is updated
first; then `top`/`bottom` and `left`/`right` are written according to the
mode. -/
def Element.updatePosition (el : GUIElement) (modeArg : Option Nat) :
    GUIElement :=
  let el :=
    match modeArg with
    | some m => { el with mode := m }
    | none => el
  let el :=
    if el.mode = Element.TOP_LEFT ∨ el.mode = Element.TOP_RIGHT then
      { el with style := { el.style with top := some el.posY } }
    else
      { el with style := { el.style with bottom := some el.posY } }
  if el.mode = Element.TOP_LEFT ∨ el.mode = Element.BOTTOM_LEFT then
    { el with style := { el.style with left := some el.posX } }
  else
    { el with style := { el.style with right := some el.posX } }

/-! ### src/unnamed/part_000 — `ArraybufferUtils.fromBase64` (lines 40-68)

The decoder scans the input four characters at a time, looking each one up in
the 64-character encoding alphabet with `String.prototype.indexOf`, and
writes three bytes per group with JavaScript 32-bit bitwise arithmetic into a
`Uint8Array` over a buffer of `str.length / 4 * 3` bytes.  The guards
`c !== 64` / `d !== 64` are transcribed as written. -/

/-- The 64-character encoding alphabet of `fromBase64` (part_000 line 42). -/
def base64Chars : List Char :=
  ['A', 'B', 'C', 'D', 'E', 'F', 'G', 'H', 'I', 'J', 'K', 'L', 'M',
   'N', 'O', 'P', 'Q', 'R', 'S', 'T', 'U', 'V', 'W', 'X', 'Y', 'Z',
   'a', 'b', 'c', 'd', 'e', 'f', 'g', 'h', 'i', 'j', 'k', 'l', 'm',
   'n', 'o', 'p', 'q', 'r', 's', 't', 'u', 'v', 'w', 'x', 'y', 'z',
   '0', '1', '2', '3', '4', '5', '6', '7', '8', '9', '+', '/']

/-- ToInt32: wrap an integer to 32-bit two's complement. -/
def toInt32 (x : Int) : Int :=
  let u := x % 4294967296
  if u < 2147483648 then u else u - 4294967296

/-- ToUint32: the 32-bit pattern of an integer, as a natural number. -/
def toUint32 (x : Int) : Nat :=
  (x % 4294967296).toNat

/-- Bit `k` of a natural number. -/
def bit32 (x : Nat) (k : Nat) : Nat :=
  x / 2 ^ k % 2

/-- Bitwise or of two 32-bit patterns, computed bit by bit. -/
def natOr32 (x y : Nat) : Nat :=
  (List.range 32).foldl (fun acc k => acc + max (bit32 x k) (bit32 y k) * 2 ^ k) 0

/-- Bitwise and of two 32-bit patterns, computed bit by bit. -/
def natAnd32 (x y : Nat) : Nat :=
  (List.range 32).foldl (fun acc k => acc + bit32 x k * bit32 y k * 2 ^ k) 0

/-- JavaScript `<<` on 32-bit integers. -/
def jsShl (x : Int) (n : Nat) : Int :=
  toInt32 (toInt32 x * 2 ^ n)

/-- JavaScript `>>` (sign-propagating right shift): arithmetic shift, i.e.
floor division by a power of two. -/
def jsShr (x : Int) (n : Nat) : Int :=
  Int.fdiv (toInt32 x) (2 ^ n)

/-- JavaScript `&` on 32-bit integers: bitwise and of the two's-complement
bit patterns, reinterpreted as a signed 32-bit integer. -/
def jsAnd (x y : Int) : Int :=
  toInt32 (natAnd32 (toUint32 x) (toUint32 y))

/-- JavaScript `|` on 32-bit integers: bitwise or of the two's-complement
bit patterns, reinterpreted as a signed 32-bit integer. -/
def jsOrI (x y : Int) : Int :=
  toInt32 (natOr32 (toUint32 x) (toUint32 y))

/-- `encoding.indexOf(str.charAt(j))`: out-of-range `charAt` yields the empty
string, and `indexOf("")` is 0; a character that is not in the alphabet
(such as the padding '=') yields -1. -/
def encIndexOf (c : Option Char) : Int :=
  match c with
  | none => 0
  | some ch =>
    match base64Chars.findIdx? (fun e => e = ch) with
    | some i => (i : Int)
    | none => -1

/-- A `Uint8Array` store of a JavaScript int32 value: ToUint8 reduces the
value modulo 256 (Lean's `Int` emod is non-negative for a positive
modulus). -/
def uint8WriteI (view : List Nat) (i : Nat) (value : Int) : List Nat :=
  view.set i ((value % 256).toNat)

/-- The decoding loop of `fromBase64` (part_000 lines 49-65).  The `fuel`
argument bounds the number of iterations: the loop advances `i` by 3 each
round and stops as soon as `i < len` fails, so `len` iterations are always
enough and the fuel never runs out when called with `fuel = len`. -/
def fromBase64Loop (str : List Char) (len : Nat) :
    Nat → Nat → Nat → List Nat → List Nat
  | 0, _, _, view => view
  | fuel + 1, i, j, view =>
    if i < len then
      let a := encIndexOf str[j]?
      let b := encIndexOf str[j + 1]?
      let c := encIndexOf str[j + 2]?
      let d := encIndexOf str[j + 3]?
      let view := uint8WriteI view i (jsOrI (jsShl a 2) (jsShr b 4))
      let view :=
        if c ≠ 64 then
          uint8WriteI view (i + 1) (jsOrI (jsShl (jsAnd b 15) 4) (jsShr c 2))
        else view
      let view :=
        if d ≠ 64 then
          uint8WriteI view (i + 2) (jsOrI (jsShl (jsAnd c 3) 6) d)
        else view
      fromBase64Loop str len fuel (i + 3) (j + 4) view
    else view

/-- `ArraybufferUtils.fromBase64` from `part_000` lines 40-68: a buffer of
`str.length / 4 * 3` bytes (integer division, as for a well-formed base64
string whose length is a multiple of 4) filled by the decoding loop. -/
def ArraybufferUtils.fromBase64 (str : List Char) : List Nat :=
  let length := str.length / 4 * 3
  fromBase64Loop str length length 0 0 (List.replicate length 0)

/-- Standard base64 encoding of a byte sequence, including '=' padding when
the length is not a multiple of 3.  Written from the claim's words ("the
standard base64 encoding of that sequence"), to feed the decoder from the
source. -/
def base64Encode : List Nat → List Char
  | b1 :: b2 :: b3 :: rest =>
    base64Chars.getD (b1 / 4) 'A' ::
    base64Chars.getD (b1 % 4 * 16 + b2 / 16) 'A' ::
    base64Chars.getD (b2 % 16 * 4 + b3 / 64) 'A' ::
    base64Chars.getD (b3 % 64) 'A' ::
    base64Encode rest
  | [b1, b2] =>
    [base64Chars.getD (b1 / 4) 'A',
     base64Chars.getD (b1 % 4 * 16 + b2 / 16) 'A',
     base64Chars.getD (b2 % 16 * 4) 'A', '=']
  | [b1] =>
    [base64Chars.getD (b1 / 4) 'A',
     base64Chars.getD (b1 % 4 * 16) 'A', '=', '=']
  | [] => []

/-! ### source/editor/Loaders.js

`Editor.loadModel` (lines 308-1067) shows a loading modal, computes the file
name extension and dispatches through an if/else-if chain to one
format-specific three.js parser, registering a `FileReader.onload` callback
for it; an unmatched extension falls to the final else branch (lines
1054-1059), which destroys the modal, alerts `Locale.unknownFileFormat` and
logs a console warning.  The texture/video/audio/font/text loaders (lines
12-297) register their results with
`Editor.addAction(new AddResourceAction(resource, Editor.program, category))`. -/

/-- Modelled from the spec: `FileSystem.getFileExtension` is not in the
source tree (only its callers are).  The spec identifies files by their
"name extension": the text after the final dot of the file name, empty when
the name has no dot. -/
def getFileExtension (name : List Char) : List Char :=
  if '.' ∈ name then (name.reverse.takeWhile (fun ch => ch ≠ '.')).reverse
  else []

/-- The format-specific parsers invoked by `Editor.loadModel`, one per
branch of the dispatch chain. -/
inductive Parser where
  | gcodeLoader | objLoader | awdLoader | amfLoader | assimpLoader
  | assimpJSONLoader | babylonLoader | jsBlend | tdsLoader | colladaLoader
  | dracoLoader | gltfLoader | plyLoader | vtkLoader | prwmLoader
  | vrmlLoader | fbxLoader | xLoader | pcdLoader | svgLoader | stlLoader
  | jsonLoader
deriving DecidableEq

/-- The undo/redo actions the loaders emit.  `addResource category` is
`Editor.addAction(new AddResourceAction(resource, Editor.program,
category))`.  `addObject` models `Editor.addObject`, which is not in the
source tree; modelled from the spec: loader results are wired "into the
editable scene graph via an undo/redo action system", so adding a parsed
object is one editor action. -/
inductive EditorAction where
  | addResource (category : String)
  | addObject
deriving DecidableEq

/-- The observable effects of the loader functions, in program order. -/
inductive LoaderEffect where
  | action (a : EditorAction)
  | invokeParser (p : Parser)
  | alert (msg : String)
  | consoleError
  | consoleWarn
  | callOnLoad
  | modalShow
  | modalDestroy
deriving DecidableEq

/-- The extensions accepted by the `Editor.loadModel` dispatch chain (the
`*.assimp.json` format is matched by file-name suffix; its extension is
"json"). -/
def supportedModelExtensions : List (List Char) :=
  [['g', 'c', 'o', 'd', 'e'], ['o', 'b', 'j'], ['a', 'w', 'd'],
   ['a', 'm', 'f'], ['a', 's', 's', 'i', 'm', 'p'],
   ['b', 'a', 'b', 'y', 'l', 'o', 'n'], ['b', 'l', 'e', 'n', 'd'],
   ['3', 'd', 's'], ['d', 'a', 'e'], ['d', 'r', 'c'], ['g', 'l', 't', 'f'],
   ['g', 'l', 'b'], ['p', 'l', 'y'], ['v', 't', 'k'], ['v', 't', 'p'],
   ['p', 'r', 'w', 'm'], ['w', 'r', 'l'], ['v', 'r', 'm', 'l'],
   ['f', 'b', 'x'], ['x'], ['p', 'c', 'd'], ['s', 'v', 'g'],
   ['s', 't', 'l'], ['j', 's', 'o', 'n']]

/-- The file-name suffix that selects the Assimp JSON branch
(`name.endsWith(".assimp.json")`, Loaders.js line 472). -/
def assimpJSONSuffix : List Char :=
  ['.', 'a', 's', 's', 'i', 'm', 'p', '.', 'j', 's', 'o', 'n']

/-- The `Editor.loadModel` format dispatch (Loaders.js lines 316-1059): the
if/else-if chain on the file extension (and, for `*.assimp.json`, on the
file-name suffix), returning the parser whose `reader.onload` callback gets
registered, or `none` for the final unknown-format branch. -/
def loadModelDispatch (name : List Char) : Option Parser :=
  let extension := getFileExtension name
  if extension = ['g', 'c', 'o', 'd', 'e'] then some Parser.gcodeLoader
  else if extension = ['o', 'b', 'j'] then some Parser.objLoader
  else if extension = ['a', 'w', 'd'] then some Parser.awdLoader
  else if extension = ['a', 'm', 'f'] then some Parser.amfLoader
  else if extension = ['a', 's', 's', 'i', 'm', 'p'] then some Parser.assimpLoader
  else if strEndsWith name assimpJSONSuffix then some Parser.assimpJSONLoader
  else if extension = ['b', 'a', 'b', 'y', 'l', 'o', 'n'] then some Parser.babylonLoader
  else if extension = ['b', 'l', 'e', 'n', 'd'] then some Parser.jsBlend
  else if extension = ['3', 'd', 's'] then some Parser.tdsLoader
  else if extension = ['d', 'a', 'e'] then some Parser.colladaLoader
  else if extension = ['d', 'r', 'c'] then some Parser.dracoLoader
  else if extension = ['g', 'l', 't', 'f'] ∨ extension = ['g', 'l', 'b'] then
    some Parser.gltfLoader
  else if extension = ['p', 'l', 'y'] then some Parser.plyLoader
  else if extension = ['v', 't', 'k'] ∨ extension = ['v', 't', 'p'] then
    some Parser.vtkLoader
  else if extension = ['p', 'r', 'w', 'm'] then some Parser.prwmLoader
  else if extension = ['w', 'r', 'l'] ∨ extension = ['v', 'r', 'm', 'l'] then
    some Parser.vrmlLoader
  else if extension = ['f', 'b', 'x'] then some Parser.fbxLoader
  else if extension = ['x'] then some Parser.xLoader
  else if extension = ['p', 'c', 'd'] then some Parser.pcdLoader
  else if extension = ['s', 'v', 'g'] then some Parser.svgLoader
  else if extension = ['s', 't', 'l'] then some Parser.stlLoader
  else if extension = ['j', 's', 'o', 'n'] then some Parser.jsonLoader
  else none

/-- The synchronous effects of `Editor.loadModel`: the modal is shown first
(lines 313-314); a matched format registers the onload callback for its
parser; the unknown-format branch destroys the modal, alerts and warns
(lines 1054-1059). -/
def loadModel (name : List Char) : List LoaderEffect :=
  LoaderEffect.modalShow ::
    (match loadModelDispatch name with
     | some p => [LoaderEffect.invokeParser p]
     | none =>
       [LoaderEffect.modalDestroy, LoaderEffect.alert "unknownFileFormat",
        LoaderEffect.consoleWarn])

/-- The number of objects the success path of each parser branch adds to the
scene: the VRML branch adds each child of the parsed scene (lines 780-783)
and the X branch adds each entry of `object.FrameInfo` (lines 885-903) —
`k` of them; every other branch adds exactly one object. -/
def parsedObjectCount (p : Parser) (k : Nat) : Nat :=
  match p with
  | Parser.vrmlLoader => k
  | Parser.xLoader => k
  | _ => 1

/-- The effects of the success path of each parser branch's onload callback:
the parsed objects are added via `Editor.addObject` and then the modal is
destroyed. -/
def successEffects (p : Parser) (k : Nat) : List LoaderEffect :=
  match p with
  | Parser.vrmlLoader =>
    List.replicate k (LoaderEffect.action EditorAction.addObject) ++
      [LoaderEffect.modalDestroy]
  | Parser.xLoader =>
    List.replicate k (LoaderEffect.action EditorAction.addObject) ++
      [LoaderEffect.modalDestroy]
  | _ => [LoaderEffect.action EditorAction.addObject, LoaderEffect.modalDestroy]

/-- The outcome of one `reader.onload` callback run: its effects and the
exception, if any, that escaped the callback. -/
structure HandlerRun where
  effects : List LoaderEffect
  uncaught : Option String
deriving DecidableEq

/-- The `reader.onload` callback registered by each `Editor.loadModel`
parser branch, applied to the outcome of the (synchronous) parse.  Every
branch except gcode wraps the parse in try/catch whose handler alerts
`Locale.errorLoadingFile` and logs a console error — and does not touch the
modal; the gcode branch (lines 321-331) has no try/catch at all, so a parse
exception propagates out of the callback. -/
def runModelHandler (p : Parser) (k : Nat) : Except String Unit → HandlerRun
  | Except.ok _ => { effects := successEffects p k, uncaught := none }
  | Except.error e =>
    match p with
    | Parser.gcodeLoader => { effects := [], uncaught := some e }
    | _ =>
      { effects :=
          [LoaderEffect.alert ("errorLoadingFile\n(" ++ e ++ ")"),
           LoaderEffect.consoleError],
        uncaught := none }

/-- The loading modal is still shown after a handler run iff the run never
destroyed it (the modal was shown when `loadModel` started). -/
def modalStillShown (r : HandlerRun) : Prop :=
  LoaderEffect.modalDestroy ∉ r.effects

/-- `Editor.loadTexture` onload effects (Loaders.js lines 65-135), by
texture extension.  Every branch registers the created texture with
`AddResourceAction` under "textures"; the tga and default branches also
register an image; in the basis branch the registration happens in the
decoder promise continuation, after `onLoad` has already run. -/
def loadTextureEffects (extension : List Char) : List LoaderEffect :=
  if extension = "dds".toList then
    [LoaderEffect.action (EditorAction.addResource "textures"),
     LoaderEffect.callOnLoad]
  else if extension = "pvr".toList then
    [LoaderEffect.action (EditorAction.addResource "textures"),
     LoaderEffect.callOnLoad]
  else if extension = "ktx".toList then
    [LoaderEffect.action (EditorAction.addResource "textures"),
     LoaderEffect.callOnLoad]
  else if extension = "tga".toList then
    [LoaderEffect.action (EditorAction.addResource "images"),
     LoaderEffect.action (EditorAction.addResource "textures"),
     LoaderEffect.callOnLoad]
  else if extension = "basis".toList then
    [LoaderEffect.callOnLoad,
     LoaderEffect.action (EditorAction.addResource "textures")]
  else
    [LoaderEffect.action (EditorAction.addResource "images"),
     LoaderEffect.action (EditorAction.addResource "textures"),
     LoaderEffect.callOnLoad]

/-- `Editor.loadVideoTexture` onload effects (lines 146-170): registers the
video and the video texture, then calls `onLoad`. -/
def loadVideoTextureEffects : List LoaderEffect :=
  [LoaderEffect.action (EditorAction.addResource "videos"),
   LoaderEffect.action (EditorAction.addResource "textures"),
   LoaderEffect.callOnLoad]

/-- `Editor.loadAudio` onload effects (lines 173-192): calls `onLoad`, then
registers the audio resource. -/
def loadAudioEffects : List LoaderEffect :=
  [LoaderEffect.callOnLoad,
   LoaderEffect.action (EditorAction.addResource "audio")]

/-- `Editor.loadFont` onload effects (lines 195-230): both the "json" branch
and the binary branch construct the font, call `onLoad` and register the
font resource. -/
def loadFontEffects (extension : List Char) : List LoaderEffect :=
  if extension = "json".toList then
    [LoaderEffect.callOnLoad,
     LoaderEffect.action (EditorAction.addResource "fonts")]
  else
    [LoaderEffect.callOnLoad,
     LoaderEffect.action (EditorAction.addResource "fonts")]

/-- `Editor.loadText` onload effects (lines 283-297): registers the text
file under "resources". -/
def loadTextEffects : List LoaderEffect :=
  [LoaderEffect.action (EditorAction.addResource "resources")]

/-! ### source/core/three/scenes/Fog.js — `Font.prototype.generateShapes`
(lines 230-377)

`generateShapes(text, size, divisions)` defaults `size` to 100 and
`divisions` to 10, then converts the text to an array of paths with the
inner `createPaths`/`createPath` functions and flattens them with the
three.js `ShapePath.toShapes` (library code, out of scope).  JavaScript
numbers are modelled as rationals. -/

/-- A glyph of the opentype json font data: `ha` is the horizontal advance,
`o` the outline command string, modelled already split on single spaces into
tokens (the source splits and caches it, Fog.js line 302). -/
structure Glyph where
  ha : ℚ
  o : Option (List String)

/-- The font data (`this.font`) consulted by `generateShapes`:
`resolution`, `boundingBox.yMax`/`boundingBox.yMin` and the glyph
dictionary. -/
structure FontData where
  resolution : ℚ
  yMax : ℚ
  yMin : ℚ
  glyphs : Char → Option Glyph

/-- JavaScript numeric coercion of an outline token (`outline[i++] * scale`);
glyph outlines hold decimal integers. -/
def jsToNumber (s : String) : ℚ :=
  ((s.toInt?).getD 0 : Int)

/-- A `THREE.ShapePath` drawing command, with the arguments in the order the
source passes them. -/
inductive PathCmd where
  | moveTo (x y : ℚ)
  | lineTo (x y : ℚ)
  | quadraticCurveTo (cpx1 cpy1 cpx cpy : ℚ)
  | bezierCurveTo (cpx1 cpy1 cpx2 cpy2 cpx cpy : ℚ)
deriving DecidableEq

/-- The outline interpreter of `createPath` (Fog.js lines 304-372): each
action token reads its coordinate tokens, scaled and offset, and emits one
path command.  The `q` branch reads `cpx, cpy, cpx1, cpy1` and calls
`quadraticCurveTo(cpx1, cpy1, cpx, cpy)`; the `b` branch reads
`cpx, cpy, cpx1, cpy1, cpx2, cpy2` and calls
`bezierCurveTo(cpx1, cpy1, cpx2, cpy2, cpx, cpy)`.  The `b2`/`b3`
subdivision loops (lines 331-344, 357-370) are omitted: they read
`pts[pts.length - 1]` and `pts` is never pushed to, so `laste` is always
undefined and they never execute (their results are discarded anyway).  An
unrecognised action consumes one token, like `i++` in the source. -/
def interpretOutline (scale offsetX offsetY : ℚ) : List String → List PathCmd
  | "m" :: xs :: ys :: rest =>
    PathCmd.moveTo (jsToNumber xs * scale + offsetX)
        (jsToNumber ys * scale + offsetY) ::
      interpretOutline scale offsetX offsetY rest
  | "l" :: xs :: ys :: rest =>
    PathCmd.lineTo (jsToNumber xs * scale + offsetX)
        (jsToNumber ys * scale + offsetY) ::
      interpretOutline scale offsetX offsetY rest
  | "q" :: t1 :: t2 :: t3 :: t4 :: rest =>
    PathCmd.quadraticCurveTo (jsToNumber t3 * scale + offsetX)
        (jsToNumber t4 * scale + offsetY)
        (jsToNumber t1 * scale + offsetX)
        (jsToNumber t2 * scale + offsetY) ::
      interpretOutline scale offsetX offsetY rest
  | "b" :: t1 :: t2 :: t3 :: t4 :: t5 :: t6 :: rest =>
    PathCmd.bezierCurveTo (jsToNumber t3 * scale + offsetX)
        (jsToNumber t4 * scale + offsetY)
        (jsToNumber t5 * scale + offsetX)
        (jsToNumber t6 * scale + offsetY)
        (jsToNumber t1 * scale + offsetX)
        (jsToNumber t2 * scale + offsetY) ::
      interpretOutline scale offsetX offsetY rest
  | _ :: rest => interpretOutline scale offsetX offsetY rest
  | [] => []

/-- The record `createPath` returns: the glyph's scaled horizontal advance
and the path built from the outline. -/
structure PathRet where
  width : ℚ
  path : List PathCmd

/-- `createPath` (Fog.js lines 285-376): glyph lookup with '?' fallback
(`data.glyphs[c] || data.glyphs["?"]`); a missing glyph yields `none` (the
source returns `undefined`, on which the caller's `ret.width` access
throws).  The second argument is `divisions` in the source; it is only read
by the subdivision loops that never execute (see `interpretOutline`). -/
def createPath (data : FontData) (_divisions : ℚ) (c : Char)
    (scale offsetX offsetY : ℚ) : Option PathRet :=
  match (data.glyphs c).or (data.glyphs '?') with
  | none => none
  | some glyph =>
    some { width := glyph.ha * scale,
           path :=
             match glyph.o with
             | some outline => interpretOutline scale offsetX offsetY outline
             | none => [] }

/-- The character loop of `createPaths` (Fog.js lines 263-279): a newline
moves the vertical offset down one line height and resets the horizontal
offset to 0 (lines 267-271); any other character contributes the path
created by `createPath` and advances the horizontal offset by `ret.width`
(lines 273-278).  A missing glyph propagates as `none` (the source would
throw reading `ret.width`). -/
def createPathsLoop (data : FontData) (scale lineHeight divisions : ℚ) :
    List Char → ℚ → ℚ → Option (List (List PathCmd))
  | [], _, _ => some []
  | ch :: rest, offsetX, offsetY =>
    if ch = '\n' then
      createPathsLoop data scale lineHeight divisions rest 0
        (offsetY - lineHeight)
    else
      match createPath data divisions ch scale offsetX offsetY with
      | none => none
      | some ret =>
        (createPathsLoop data scale lineHeight divisions rest
            (offsetX + ret.width) offsetY).map
          (fun paths => ret.path :: paths)

/-- `createPaths` (Fog.js lines 254-282): `scale = size / data.resolution`,
`lineHeight = (yMax - yMin) * scale`, offsets start at (0, 0). -/
def createPaths (data : FontData) (size divisions : ℚ) (text : List Char) :
    Option (List (List PathCmd)) :=
  let scale := size / data.resolution
  let lineHeight := (data.yMax - data.yMin) * scale
  createPathsLoop data scale lineHeight divisions text 0 0

/-- `Font.prototype.generateShapes` (Fog.js lines 230-251): `size` defaults
to 100 and `divisions` to 10 when omitted; the text is converted to paths
by `createPaths`. -/
def Font.generateShapes (data : FontData) (text : List Char)
    (sizeArg divisionsArg : Option ℚ) : Option (List (List PathCmd)) :=
  let size := sizeArg.getD 100
  let divisions := divisionsArg.getD 10
  createPaths data size divisions text

/-- The claim's character-by-character description of the path walk: each
non-newline character contributes exactly one path and advances the
horizontal offset by the glyph's scaled horizontal advance
(`glyph.ha * scale`, looked up with the same '?' fallback); each newline
contributes no path, moves the vertical offset down one scaled line height
and resets the horizontal offset to 0.  Written from the claim's words, to
be compared with `createPathsLoop` from the source. -/
def claimPathsWalk (data : FontData) (scale lineHeight divisions : ℚ) :
    List Char → ℚ → ℚ → Option (List (List PathCmd))
  | [], _, _ => some []
  | ch :: rest, offsetX, offsetY =>
    if ch = '\n' then
      claimPathsWalk data scale lineHeight divisions rest 0
        (offsetY - lineHeight)
    else
      match (data.glyphs ch).or (data.glyphs '?') with
      | none => none
      | some glyph =>
        (claimPathsWalk data scale lineHeight divisions rest
            (offsetX + glyph.ha * scale) offsetY).map
          (fun paths =>
            ((createPath data divisions ch scale offsetX offsetY).map
                PathRet.path).getD [] :: paths)

/-- A two-glyph font used to evaluate the walk on concrete input. -/
def sampleFont : FontData :=
  { resolution := 100, yMax := 80, yMin := -20,
    glyphs := fun c =>
      if c = 'a' then some { ha := 10, o := none }
      else if c = '?' then some { ha := 3, o := none }
      else none }

/-! ## Theorems -/

/-- Writing each index of a zero-initialised buffer in increasing order
produces the mapped list. -/
theorem foldl_uint8Write_eq (g : Nat → Nat) :
    ∀ (n : Nat) (v : List Nat), n ≤ v.length →
      (List.range n).foldl (fun view i => view.set i (g i)) v =
        (List.range n).map g ++ v.drop n := by
  intro n
  induction n with
  | zero => intro v _; simp
  | succ n ih =>
    intro v hv
    rw [List.range_succ, List.foldl_append, ih v (Nat.le_of_succ_le hv)]
    have hn : n < v.length := hv
    have hlen : ((List.range n).map g).length = n := by simp
    have hdrop : v.drop n = v[n] :: v.drop (n + 1) :=
      List.drop_eq_getElem_cons hn
    simp only [List.foldl_cons, List.foldl_nil, List.set_append, hlen,
      Nat.lt_irrefl, if_false, Nat.sub_self, hdrop, List.set_cons_zero,
      List.map_append, List.map_cons, List.map_nil]
    simp

/-- C6: `Font.fileIsFont` returns true exactly when its argument is defined
and the argument's name, converted to lower case, ends with one of the
suffixes "ttf", "otf", "ttc", "otc" or "json"; for an undefined argument it
returns false. -/
theorem fileIsFont_iff (o : Option FileRef) :
    (Font.fileIsFont o = true ↔
      ∃ f, o = some f ∧
        (strEndsWith (strToLower f.name) ['t', 't', 'f'] = true ∨
         strEndsWith (strToLower f.name) ['o', 't', 'f'] = true ∨
         strEndsWith (strToLower f.name) ['t', 't', 'c'] = true ∨
         strEndsWith (strToLower f.name) ['o', 't', 'c'] = true ∨
         strEndsWith (strToLower f.name) ['j', 's', 'o', 'n'] = true)) ∧
    Font.fileIsFont none = false := by
  constructor
  · cases o with
    | none => simp [Font.fileIsFont]
    | some f =>
      simp only [Font.fileIsFont, Bool.or_eq_true, Option.some.injEq]
      constructor
      · intro h
        exact ⟨f, rfl, by tauto⟩
      · rintro ⟨g, rfl, h⟩
        tauto
  · rfl

/-- Witness for `fileIsFont_iff` at a concrete file. -/
theorem fileIsFont_iff_witness :
    Font.fileIsFont (some ⟨['A', '.', 'T', 'T', 'F']⟩) = true ∧
    Font.fileIsFont none = false :=
  ⟨(fileIsFont_iff (some ⟨['A', '.', 'T', 'T', 'F']⟩)).1.mpr
      ⟨⟨['A', '.', 'T', 'T', 'F']⟩, rfl, Or.inl (by decide)⟩,
    (fileIsFont_iff (some ⟨['A', '.', 'T', 'T', 'F']⟩)).2⟩

/-- C7: `ArraybufferUtils.fromBinaryString` returns a buffer whose length
equals the input string's length and whose i-th byte is the i-th character
code reduced modulo 256. -/
theorem fromBinaryString_spec (str : List Nat) :
    (ArraybufferUtils.fromBinaryString str).length = str.length ∧
    ∀ i, i < str.length →
      (ArraybufferUtils.fromBinaryString str).getD i 0 = str.getD i 0 % 256 := by
  have hform : ArraybufferUtils.fromBinaryString str =
      (List.range str.length).map (fun i => str.getD i 0 % 256) := by
    show (List.range str.length).foldl
        (fun view i => uint8Write view i (str.getD i 0))
        (List.replicate str.length 0) = _
    simp only [uint8Write]
    rw [foldl_uint8Write_eq (fun i => str.getD i 0 % 256) str.length
      (List.replicate str.length 0) (by simp)]
    simp
  constructor
  · rw [hform]; simp
  · intro i hi
    rw [hform]
    have hlen : i < ((List.range str.length).map
        (fun i => str.getD i 0 % 256)).length := by simpa using hi
    rw [List.getD_eq_getElem _ _ hlen]
    simp

/-- Witness for `fromBinaryString_spec` at the code-unit list [72, 300]. -/
theorem fromBinaryString_spec_witness :
    (ArraybufferUtils.fromBinaryString [72, 300]).length = 2 ∧
    (ArraybufferUtils.fromBinaryString [72, 300]).getD 1 0 = 44 :=
  ⟨(fromBinaryString_spec [72, 300]).1,
    by
      have h := (fromBinaryString_spec [72, 300]).2 1 (by decide)
      simpa using h⟩

/-- C10: after `setFontSize(size)` the stored code font size equals
`max size 5`, so it never goes below the lower limit 5. -/
theorem setFontSize_clamps (settings : CodeSettings) (size : ℚ) :
    (CodeEditor.setFontSize settings size).1.fontSize = max size 5 := by
  show (if size < 5 then (5 : ℚ) else size) = max size 5
  rcases lt_or_le size 5 with h | h
  · simp [h, max_eq_right h.le]
  · simp [not_lt.mpr h, max_eq_left h]

/-- One `show`/`hide` call keeps the counter non-negative. -/
theorem modal_step_nonneg (s : ModalState) (op : ModalOp)
    (h : 0 ≤ s.counter) : 0 ≤ (LoadingModal.step s op).counter := by
  cases op with
  | opShow =>
    show 0 ≤ (LoadingModal.showModal s).counter
    simp only [LoadingModal.showModal]
    split
    · simp only []
      omega
    · simp only []
      omega
  | opHide f =>
    show 0 ≤ (LoadingModal.hideModal s f).counter
    simp only [LoadingModal.hideModal]
    split
    · simp
    · rename_i hcond
      simp only [not_or] at hcond
      simp only []
      omega

/-- Folding `show`/`hide` calls preserves counter non-negativity. -/
theorem modal_foldl_nonneg :
    ∀ (ops : List ModalOp) (s : ModalState), 0 ≤ s.counter →
      0 ≤ (ops.foldl LoadingModal.step s).counter := by
  intro ops
  induction ops with
  | nil => intro s h; simpa using h
  | cons op rest ih =>
    intro s h
    exact ih (LoadingModal.step s op) (modal_step_nonneg s op h)

/-- C9: starting from a fresh modal, the counter never ends a call negative;
`show` increments the counter and makes the modal visible when the counter
reaches 1; `hide` decrements the counter but resets it to 0 and hides the
modal whenever it drops below 1; `hide` with `force = true` always leaves the
counter at 0 with the modal hidden. -/
theorem loadingModal_counter_invariant :
    (∀ ops : List ModalOp, 0 ≤ (LoadingModal.run ops).counter) ∧
    (∀ s : ModalState,
      (LoadingModal.showModal s).counter = s.counter + 1 ∧
      (s.counter + 1 = 1 →
        LoadingModal.showModal s = { counter := 1, visible := true })) ∧
    (∀ (s : ModalState) (force : Bool),
      (s.counter - 1 < 1 ∨ force = true →
        LoadingModal.hideModal s force = { counter := 0, visible := false }) ∧
      (1 ≤ s.counter - 1 → force = false →
        LoadingModal.hideModal s force = { s with counter := s.counter - 1 })) ∧
    (∀ s : ModalState,
      LoadingModal.hideModal s true = { counter := 0, visible := false }) := by
  refine ⟨?_, ?_, ?_, ?_⟩
  · intro ops
    exact modal_foldl_nonneg ops LoadingModal.new (by simp [LoadingModal.new])
  · intro s
    constructor
    · simp only [LoadingModal.showModal]
      split <;> simp_all
    · intro h
      simp only [LoadingModal.showModal]
      rw [if_pos h, h]
  · intro s force
    constructor
    · intro h
      simp only [LoadingModal.hideModal]
      rw [if_pos h]
    · intro h hf
      subst hf
      simp only [LoadingModal.hideModal]
      rw [if_neg (by simp only [Bool.false_eq_true, or_false]; omega)]
  · intro s
    simp only [LoadingModal.hideModal]
    rw [if_pos (Or.inr (by simp))]

/-- Witness for `loadingModal_counter_invariant` on a concrete call
sequence. -/
theorem loadingModal_counter_invariant_witness :
    0 ≤ (LoadingModal.run
        [ModalOp.opShow, ModalOp.opHide false, ModalOp.opHide false]).counter ∧
    LoadingModal.hideModal { counter := 5, visible := true } true =
      { counter := 0, visible := false } ∧
    LoadingModal.showModal LoadingModal.new =
      { counter := 1, visible := true } :=
  ⟨loadingModal_counter_invariant.1
      [ModalOp.opShow, ModalOp.opHide false, ModalOp.opHide false],
    (loadingModal_counter_invariant.2.2.1
        { counter := 5, visible := true } true).1 (Or.inr rfl),
    (loadingModal_counter_invariant.2.1 LoadingModal.new).2 (by decide)⟩

/-- C8: for each of the four positioning modes, `Element.updatePosition`
updates the stored mode to the explicit argument and anchors the element:
`top` is set to the stored y position for TOP_LEFT/TOP_RIGHT and `bottom`
otherwise; `left` is set to the stored x position for TOP_LEFT/BOTTOM_LEFT
and `right` otherwise; with no argument the stored mode is used. -/
theorem updatePosition_anchors (el : GUIElement) (m : Nat)
    (hm : m = Element.TOP_LEFT ∨ m = Element.TOP_RIGHT ∨
          m = Element.BOTTOM_LEFT ∨ m = Element.BOTTOM_RIGHT) :
    ((Element.updatePosition el (some m)).mode = m) ∧
    ((m = Element.TOP_LEFT ∨ m = Element.TOP_RIGHT) →
      (Element.updatePosition el (some m)).style.top = some el.posY ∧
      (Element.updatePosition el (some m)).style.bottom = el.style.bottom) ∧
    ((m = Element.BOTTOM_LEFT ∨ m = Element.BOTTOM_RIGHT) →
      (Element.updatePosition el (some m)).style.bottom = some el.posY ∧
      (Element.updatePosition el (some m)).style.top = el.style.top) ∧
    ((m = Element.TOP_LEFT ∨ m = Element.BOTTOM_LEFT) →
      (Element.updatePosition el (some m)).style.left = some el.posX ∧
      (Element.updatePosition el (some m)).style.right = el.style.right) ∧
    ((m = Element.TOP_RIGHT ∨ m = Element.BOTTOM_RIGHT) →
      (Element.updatePosition el (some m)).style.right = some el.posX ∧
      (Element.updatePosition el (some m)).style.left = el.style.left) ∧
    (Element.updatePosition el none = Element.updatePosition el (some el.mode)) := by
  have hnone : Element.updatePosition el none =
      Element.updatePosition el (some el.mode) := by
    simp only [Element.updatePosition]
  rcases hm with h | h | h | h <;> subst h <;>
    refine ⟨?_, ?_, ?_, ?_, ?_, hnone⟩ <;>
    simp [Element.updatePosition, Element.TOP_LEFT, Element.TOP_RIGHT,
      Element.BOTTOM_LEFT, Element.BOTTOM_RIGHT]

/-- Witness for `updatePosition_anchors` at a concrete element in
BOTTOM_RIGHT mode. -/
theorem updatePosition_anchors_witness :
    (Element.BOTTOM_RIGHT = Element.TOP_LEFT ∨
     Element.BOTTOM_RIGHT = Element.TOP_RIGHT ∨
     Element.BOTTOM_RIGHT = Element.BOTTOM_LEFT ∨
     Element.BOTTOM_RIGHT = Element.BOTTOM_RIGHT) ∧
    (Element.updatePosition ⟨0, 3, 7, ⟨none, none, none, none⟩⟩
        (some Element.BOTTOM_RIGHT)).mode = Element.BOTTOM_RIGHT :=
  ⟨Or.inr (Or.inr (Or.inr rfl)),
    (updatePosition_anchors ⟨0, 3, 7, ⟨none, none, none, none⟩⟩
        Element.BOTTOM_RIGHT (Or.inr (Or.inr (Or.inr rfl)))).1⟩

/-- C3: `ArraybufferUtils.fromBase64` is not a correct base64 decoder on
padded input.  The standard encoding of the one-byte sequence [0] is "AA==",
but the decoder returns the three-byte buffer [0, 255, 255]: the buffer
length is `str.length / 4 * 3` regardless of padding, and the guards
`c !== 64` / `d !== 64` never fire because `indexOf('=')` is -1, so the
padding positions are filled with 255. -/
theorem fromBase64_padding_bug :
    base64Encode [0] = ['A', 'A', '=', '='] ∧
    ArraybufferUtils.fromBase64 ['A', 'A', '=', '='] = [0, 255, 255] ∧
    ArraybufferUtils.fromBase64 (base64Encode [0]) ≠ [0] := by
  refine ⟨by decide, by decide, by decide⟩

/-- A file name ending in ".assimp.json" has extension "json". -/
theorem endsWith_assimpJSON_ext (name : List Char)
    (h : strEndsWith name assimpJSONSuffix = true) :
    getFileExtension name = ['j', 's', 'o', 'n'] := by
  unfold strEndsWith at h
  rw [List.isSuffixOf_iff_suffix] at h
  obtain ⟨pre, rfl⟩ := h
  unfold getFileExtension
  rw [if_pos (List.mem_append_right pre (by decide))]
  rw [List.reverse_append]
  rw [show assimpJSONSuffix.reverse =
    ['n', 'o', 's', 'j', '.', 'p', 'm', 'i', 's', 's', 'a', '.'] from by decide]
  simp +decide [List.cons_append, List.takeWhile_cons]

/-- C1: `Editor.loadModel` dispatches on the file's name extension to
exactly one format-specific parser among the supported model formats, and
for every file whose extension matches none of them it destroys the loading
modal and reports an unknown file format instead of invoking any parser. -/
theorem loadModel_dispatch_exhaustive (name : List Char) :
    (getFileExtension name ∈ supportedModelExtensions ↔
      ∃ p, loadModelDispatch name = some p) ∧
    (∀ p, loadModelDispatch name = some p →
      loadModel name = [LoaderEffect.modalShow, LoaderEffect.invokeParser p]) ∧
    (getFileExtension name ∉ supportedModelExtensions →
      loadModelDispatch name = none ∧
      loadModel name =
        [LoaderEffect.modalShow, LoaderEffect.modalDestroy,
         LoaderEffect.alert "unknownFileFormat", LoaderEffect.consoleWarn] ∧
      ∀ p, LoaderEffect.invokeParser p ∉ loadModel name) := by
  have hmid : ∀ p, loadModelDispatch name = some p →
      loadModel name = [LoaderEffect.modalShow, LoaderEffect.invokeParser p] := by
    intro p hp
    simp [loadModel, hp]
  have hneg : getFileExtension name ∉ supportedModelExtensions →
      loadModelDispatch name = none := by
    intro h
    simp only [supportedModelExtensions, List.mem_cons, List.not_mem_nil,
      or_false, not_or] at h
    obtain ⟨h1, h2, h3, h4, h5, h6, h7, h8, h9, h10, h11, h12, h13, h14,
      h15, h16, h17, h18, h19, h20, h21, h22, h23, h24⟩ := h
    have hsw : strEndsWith name assimpJSONSuffix = false := by
      cases hx : strEndsWith name assimpJSONSuffix with
      | false => rfl
      | true => exact absurd (endsWith_assimpJSON_ext name hx) h24
    simp only [loadModelDispatch]
    simp [h1, h2, h3, h4, h5, h6, h7, h8, h9, h10, h11, h12, h13, h14, h15,
      h16, h17, h18, h19, h20, h21, h22, h23, h24, hsw]
  refine ⟨⟨?_, ?_⟩, hmid, fun h => ⟨hneg h, ?_, ?_⟩⟩
  · intro h
    rw [← Option.isSome_iff_exists]
    simp only [supportedModelExtensions, List.mem_cons, List.not_mem_nil,
      or_false] at h
    rcases h with h | h | h | h | h | h | h | h | h | h | h | h | h | h |
      h | h | h | h | h | h | h | h | h | h <;>
      by_cases hsw : strEndsWith name assimpJSONSuffix = true <;>
      simp +decide [loadModelDispatch, h, hsw]
  · rintro ⟨p, hp⟩
    by_contra hext
    rw [hneg hext] at hp
    cases hp
  · simp [loadModel, hneg h]
  · intro p
    simp [loadModel, hneg h]

/-- Witness for `loadModel_dispatch_exhaustive`: an stl file dispatches to
the STL loader and an unknown extension falls to the unknown-format
branch. -/
theorem loadModel_dispatch_exhaustive_witness :
    loadModel ("barrel.stl".toList) =
      [LoaderEffect.modalShow, LoaderEffect.invokeParser Parser.stlLoader] ∧
    loadModel ("barrel.xyz".toList) =
      [LoaderEffect.modalShow, LoaderEffect.modalDestroy,
       LoaderEffect.alert "unknownFileFormat", LoaderEffect.consoleWarn] :=
  ⟨(loadModel_dispatch_exhaustive ("barrel.stl".toList)).2.1
      Parser.stlLoader (by decide),
    ((loadModel_dispatch_exhaustive ("barrel.xyz".toList)).2.2
      (by decide)).2.1⟩

/-- C4 counterexample: a parse error in the gcode branch is not caught (the
gcode onload has no try/catch), and a caught parse error in the obj branch
does not destroy the loading modal — in both cases the modal remains
shown, contradicting the claim that every parse exception is caught and the
modal destroyed. -/
theorem loadModel_error_counterexample :
    runModelHandler Parser.gcodeLoader 1 (Except.error "boom") =
      { effects := [], uncaught := some "boom" } ∧
    modalStillShown (runModelHandler Parser.gcodeLoader 1 (Except.error "boom")) ∧
    modalStillShown (runModelHandler Parser.objLoader 1 (Except.error "boom")) :=
  ⟨rfl, by unfold modalStillShown; decide, by unfold modalStillShown; decide⟩

/-- C4 amended: for every supported format except gcode, a parse exception
is caught and an error alert is shown, but the catch handler does not
destroy the loading modal, which therefore remains shown; the gcode handler
catches nothing, so the exception escapes with the modal still shown.  Only
the success path destroys the modal. -/
theorem loadModel_error_handling_amended (p : Parser) (e : String) (k : Nat) :
    (p ≠ Parser.gcodeLoader →
      runModelHandler p k (Except.error e) =
        { effects := [LoaderEffect.alert ("errorLoadingFile\n(" ++ e ++ ")"),
                      LoaderEffect.consoleError],
          uncaught := none } ∧
      modalStillShown (runModelHandler p k (Except.error e))) ∧
    (runModelHandler Parser.gcodeLoader k (Except.error e) =
        { effects := [], uncaught := some e } ∧
      modalStillShown (runModelHandler Parser.gcodeLoader k (Except.error e))) ∧
    LoaderEffect.modalDestroy ∈ (runModelHandler p k (Except.ok ())).effects := by
  refine ⟨?_, ⟨rfl, by simp [modalStillShown, runModelHandler]⟩, ?_⟩
  · intro hp
    cases p <;> first
      | exact absurd rfl hp
      | exact ⟨rfl, by simp [modalStillShown, runModelHandler]⟩
  · cases p <;>
      simp [runModelHandler, successEffects, List.mem_append]

/-- Witness for `loadModel_error_handling_amended` at the obj branch. -/
theorem loadModel_error_handling_amended_witness :
    runModelHandler Parser.objLoader 0 (Except.error "boom") =
      { effects := [LoaderEffect.alert ("errorLoadingFile\n(" ++ "boom" ++ ")"),
                    LoaderEffect.consoleError],
        uncaught := none } ∧
    modalStillShown (runModelHandler Parser.objLoader 0 (Except.error "boom")) :=
  (loadModel_error_handling_amended Parser.objLoader "boom" 0).1 (by decide)

/-- C2: every loader registers its results through the undo/redo action
system: the texture, video, audio, font and text loaders all emit an
`AddResourceAction` under the right category, and every object the
`loadModel` success paths add goes through an object-add editor action
(with one action per parsed object). -/
theorem loaders_register_via_actions :
    (∀ ext : List Char,
      LoaderEffect.action (EditorAction.addResource "textures") ∈
        loadTextureEffects ext) ∧
    (LoaderEffect.action (EditorAction.addResource "videos") ∈
        loadVideoTextureEffects ∧
      LoaderEffect.action (EditorAction.addResource "textures") ∈
        loadVideoTextureEffects) ∧
    LoaderEffect.action (EditorAction.addResource "audio") ∈ loadAudioEffects ∧
    (∀ ext : List Char,
      LoaderEffect.action (EditorAction.addResource "fonts") ∈
        loadFontEffects ext) ∧
    LoaderEffect.action (EditorAction.addResource "resources") ∈
      loadTextEffects ∧
    (∀ (p : Parser) (k : Nat),
      (successEffects p k).count (LoaderEffect.action EditorAction.addObject) =
        parsedObjectCount p k ∧
      ∀ e ∈ successEffects p k,
        e = LoaderEffect.action EditorAction.addObject ∨
          e = LoaderEffect.modalDestroy) := by
  refine ⟨?_, ⟨by decide, by decide⟩, by decide, ?_, by decide, ?_⟩
  · intro ext
    unfold loadTextureEffects
    split_ifs <;> simp
  · intro ext
    unfold loadFontEffects
    split_ifs <;> simp
  · intro p k
    constructor
    · cases p <;>
        simp +decide [successEffects, parsedObjectCount, List.count_append,
          List.count_replicate, List.count_cons, List.count_nil]
    · cases p <;>
        (intro e he
         simp [successEffects, List.mem_append, List.mem_replicate,
           List.mem_cons] at he
         tauto)

/-- Witness for `loaders_register_via_actions` at concrete inputs. -/
theorem loaders_register_via_actions_witness :
    LoaderEffect.action (EditorAction.addResource "textures") ∈
      loadTextureEffects ("tga".toList) ∧
    (successEffects Parser.vrmlLoader 2).count
        (LoaderEffect.action EditorAction.addObject) =
      parsedObjectCount Parser.vrmlLoader 2 ∧
    (LoaderEffect.modalDestroy = LoaderEffect.action EditorAction.addObject ∨
      LoaderEffect.modalDestroy = LoaderEffect.modalDestroy) :=
  ⟨loaders_register_via_actions.1 ("tga".toList),
    (loaders_register_via_actions.2.2.2.2.2 Parser.vrmlLoader 2).1,
    (loaders_register_via_actions.2.2.2.2.2 Parser.vrmlLoader 2).2
      LoaderEffect.modalDestroy (by decide)⟩

/-- The source's character loop coincides with the claim's walk: the advance
`ret.width` returned by `createPath` equals the glyph's scaled horizontal
advance. -/
theorem createPathsLoop_eq_claim (data : FontData)
    (scale lineHeight divisions : ℚ) :
    ∀ (text : List Char) (offsetX offsetY : ℚ),
      createPathsLoop data scale lineHeight divisions text offsetX offsetY =
        claimPathsWalk data scale lineHeight divisions text offsetX offsetY := by
  intro text
  induction text with
  | nil => intro ox oy; rfl
  | cons ch rest ih =>
    intro ox oy
    by_cases hch : ch = '\n'
    · simp only [createPathsLoop, claimPathsWalk, if_pos hch]
      exact ih 0 (oy - lineHeight)
    · simp only [createPathsLoop, claimPathsWalk, if_neg hch]
      cases hg : (data.glyphs ch).or (data.glyphs '?') with
      | none => simp [createPath, hg]
      | some glyph =>
        simp only [createPath, hg]
        rw [ih (ox + glyph.ha * scale) oy]
        simp

/-- Each non-newline character contributes exactly one path. -/
theorem createPathsLoop_length (data : FontData)
    (scale lineHeight divisions : ℚ) :
    ∀ (text : List Char) (offsetX offsetY : ℚ)
      (paths : List (List PathCmd)),
      createPathsLoop data scale lineHeight divisions text offsetX offsetY =
        some paths →
      paths.length = (text.filter (fun ch => ch ≠ '\n')).length := by
  intro text
  induction text with
  | nil =>
    intro ox oy paths h
    simp only [createPathsLoop] at h
    cases h
    rfl
  | cons ch rest ih =>
    intro ox oy paths h
    by_cases hch : ch = '\n'
    · rw [show createPathsLoop data scale lineHeight divisions
          (ch :: rest) ox oy =
            createPathsLoop data scale lineHeight divisions rest 0
              (oy - lineHeight) from by
        simp only [createPathsLoop, if_pos hch]] at h
      rw [ih 0 (oy - lineHeight) paths h]
      simp [List.filter_cons, hch]
    · simp only [createPathsLoop, if_neg hch] at h
      cases hcp : createPath data divisions ch scale ox oy with
      | none =>
        simp only [hcp] at h
        exact Option.noConfusion h
      | some ret =>
        simp only [hcp] at h
        obtain ⟨ps, hps, hpE⟩ := Option.map_eq_some'.mp h
        rw [← hpE]
        simp only [List.length_cons]
        rw [ih (ox + ret.width) oy ps hps]
        simp [List.filter_cons, hch]

/-- C5: `generateShapes` converts the text to paths character by character:
the source loop coincides with the claim's walk (each non-newline character
contributes exactly one path and advances the horizontal offset by the
glyph's scaled horizontal advance; each newline contributes no path, moves
the vertical offset down one scaled line height and resets the horizontal
offset to 0), the number of paths equals the number of non-newline
characters, and omitted size/divisions arguments default to 100 and 10. -/
theorem generateShapes_spec (data : FontData) (text : List Char)
    (scale lineHeight divisions offsetX offsetY size : ℚ) :
    (createPathsLoop data scale lineHeight divisions text offsetX offsetY =
      claimPathsWalk data scale lineHeight divisions text offsetX offsetY) ∧
    (∀ paths,
      createPathsLoop data scale lineHeight divisions text offsetX offsetY =
        some paths →
      paths.length = (text.filter (fun ch => ch ≠ '\n')).length) ∧
    Font.generateShapes data text none none = createPaths data 100 10 text ∧
    Font.generateShapes data text (some size) (some divisions) =
      createPaths data size divisions text :=
  ⟨createPathsLoop_eq_claim data scale lineHeight divisions text offsetX
      offsetY,
    fun paths h =>
      createPathsLoop_length data scale lineHeight divisions text offsetX
        offsetY paths h,
    rfl, rfl⟩

/-- Witness for `generateShapes_spec` on a concrete font and text. -/
theorem generateShapes_spec_witness :
    (createPathsLoop sampleFont 1 100 10 ['a', '\n'] 0 0 =
      claimPathsWalk sampleFont 1 100 10 ['a', '\n'] 0 0) ∧
    ([([] : List PathCmd)] : List (List PathCmd)).length =
      ((['a', '\n']).filter (fun ch => ch ≠ '\n')).length :=
  ⟨(generateShapes_spec sampleFont ['a', '\n'] 1 100 10 0 0 0).1,
    (generateShapes_spec sampleFont ['a', '\n'] 1 100 10 0 0 0).2.1
      [[]] rfl⟩
